import Mathlib

set_option linter.unusedVariables false

/-!
Shallow embedding of the raft-style replicated key-value node implemented in
src/main.cpp (class RaftNode and its inner struct State), together with the
persistence-recovery logic it uses.  64-bit timestamps are modelled as Int
(the code compares and adds them without overflow in any reachable range);
the one unsigned counter that can wrap (recovery_snapshot_size_, a uint64_t
decremented per operation) is modelled with explicit wraparound at 2^64.
Protobuf serialization equality on LogRecord is modelled as structural
equality, per the data model: equal records have identical serialized form.
The std::map FSM is modelled as an association list; file descriptors and
promises are modelled by explicit data (written items, epoch counters).
-/

/-- Roles of RaftNode (enum NodeRole in src/main.cpp). -/
inductive NodeRole
  | follower
  | leader
  | candidate
deriving DecidableEq, Repr

/-- A single key/value write operation inside a log record. -/
structure Op where
  key : String
  value : String
deriving DecidableEq, Repr

/-- LogRecord message: a timestamp and an ordered sequence of operations. -/
structure LogRecord where
  ts : Int
  operations : List Op
deriving DecidableEq, Repr

instance : Inhabited LogRecord := ⟨{ ts := 0, operations := [] }⟩

/-- Response message: { term, durable_ts, next_ts, success }. -/
structure Response where
  term : Nat
  durable_ts : Int
  next_ts : Int
  success : Bool
deriving DecidableEq, Repr

/-- VoteRpc message: { term, ts, vote_for }. -/
structure VoteRpc where
  term : Nat
  ts : Int
  vote_for : Nat
deriving DecidableEq, Repr

/-- AppendRpcs message: { term, applied_ts, records }. -/
structure AppendRpcs where
  term : Nat
  applied_ts : Int
  records : List LogRecord
deriving DecidableEq, Repr

/-- Client operation kinds. -/
inductive OpType
  | READ
  | WRITE
deriving DecidableEq, Repr

/-- One operation of a ClientRequest. -/
structure ClientOp where
  type : OpType
  key : String
  value : String
deriving DecidableEq, Repr

/-- ClientRequest message. -/
structure ClientRequest where
  operations : List ClientOp
deriving DecidableEq, Repr

/-- ClientResponse message; unset protobuf fields read as their defaults. -/
structure ClientResponse where
  success : Bool
  should_retry : Bool
  retry_to : Nat
  entries : List Op
deriving DecidableEq, Repr

/-- RecoverySnapshot message. -/
structure RecoverySnapshot where
  term : Nat
  applied_ts : Int
  size : Nat
  start : Bool
  end_ : Bool
  operations : List Op
deriving DecidableEq, Repr

/-- An item written to the follower side snapshot file: an int64 header field
or a length-prefixed log record. -/
inductive SnapItem
  | num (v : Int)
  | record (r : LogRecord)
deriving DecidableEq, Repr

/-- Model of the BufferedFile used for an incoming recovery snapshot: the open
target (named by its applied_ts), the items written since it was opened, and
whether sync() has been called on the written data. -/
structure SnapFile where
  fd : Option Int
  writes : List SnapItem
  synced : Bool
deriving DecidableEq, Repr

/-- In-memory node state (struct RaftNode::State).  follower_heartbeats_ and
latest_heartbeat_ are wall-clock values and are not modelled; flush_event_ is
modelled as an epoch counter (each flush cycle swaps in a fresh promise and
completes the captured one, so completing promise number flush_epoch and
incrementing the counter models the swap).  commit_subscribers_ is modelled
as the list of subscribed timestamps in ascending order, the order in which
the surrounding code consumes the map. -/
structure NodeState where
  id : Nat
  current_term : Nat
  role : NodeRole
  leader_id : Option Nat
  durable_ts : Int
  applied_ts : Int
  next_ts : Int
  read_barrier_ts : Int
  voted_for_me : List Nat
  next_timestamps : List Int
  durable_timestamps : List Int
  commit_subscribers : List Int
  flushed_index : Nat
  buffered_log : List LogRecord
  flush_epoch : Nat
  fsm : List (String × String)
  recovery_snapshot_id : Option (Nat × Int)
  recovery_snapshot_size : Nat
  recovery_snapshot_file : SnapFile
deriving DecidableEq, Repr

/-- Lookup in the association-list model of std::map<std::string, std::string>. -/
def lookupKV : List (String × String) → String → Option String
  | [], _ => none
  | (k, v) :: rest, key => if k = key then some v else lookupKV rest key

/-- Assignment fsm[key] = value. -/
def setKV : List (String × String) → String → String → List (String × String)
  | [], key, val => [(key, val)]
  | (k, v) :: rest, key, val =>
    if k = key then (k, val) :: rest else (k, v) :: setKV rest key val

/-- std::map operator[]: returns the mapped value, default-inserting an empty
string when the key is absent. -/
def mapGet (m : List (String × String)) (key : String) : String × List (String × String) :=
  match lookupKV m key with
  | some v => (v, m)
  | none => ("", m ++ [(key, "")])

/-- State::apply — apply every operation of a record to the FSM. -/
def applyRecord (fsm : List (String × String)) (record : LogRecord) : List (String × String) :=
  record.operations.foldl (fun m op => setKV m op.key op.value) fsm

/-- State::create_response. -/
def create_response (s : NodeState) (success : Bool) : Response :=
  { term := s.current_term, durable_ts := s.durable_ts, next_ts := s.next_ts, success := success }

/-- State::match_message — returns true when the record lies outside the
buffered window or when the buffered entry at its ts serializes differently. -/
def match_message (s : NodeState) (record : LogRecord) : Bool :=
  match s.buffered_log.head?, s.buffered_log.getLast? with
  | some h, some l =>
    if record.ts < h.ts ∨ record.ts > l.ts then true
    else decide (s.buffered_log.getD (record.ts - h.ts).toNat default ≠ record)
  | _, _ => true

/-- The loop body of State::advance_to: starting at a position of the buffered
log, apply records while their ts does not exceed the target, tracking the
applied timestamp. -/
def advanceFrom (ts : Int) : List LogRecord → List (String × String) → Int →
    List (String × String) × Int
  | [], fsm, applied => (fsm, applied)
  | r :: rest, fsm, applied =>
    if ts ≥ r.ts then advanceFrom ts rest (applyRecord fsm r) r.ts
    else (fsm, applied)

/-- State::advance_to. -/
def advance_to (s : NodeState) (ts : Int) : NodeState :=
  if s.buffered_log.isEmpty then s
  else
    let pos : Int := s.applied_ts - (s.buffered_log.headD default).ts + 1
    if 0 ≤ pos then
      let res := advanceFrom ts (s.buffered_log.drop pos.toNat) s.fsm s.applied_ts
      { s with fsm := res.1, applied_ts := res.2 }
    else s

/-- The quorum timestamp computed by State::advance_applied_timestamp: with
the node's own durable_ts written into its slot, the element at index N/2 of
the ascending sort of the per-peer durable timestamps. -/
def quorumTs (s : NodeState) : Int :=
  let dts := s.durable_timestamps.set s.id s.durable_ts
  let tss := List.insertionSort (fun a b => a ≤ b) dts
  tss.getD (tss.length / 2) 0

/-- State::advance_applied_timestamp — record own durable_ts, sort the per-peer
durable timestamps ascending, and advance to the element at index N/2. -/
def advance_applied_timestamp (s : NodeState) : NodeState :=
  advance_to { s with durable_timestamps := s.durable_timestamps.set s.id s.durable_ts }
    (quorumTs s)

/-- Insert a subscribed timestamp keeping the list ascending (std::map key order). -/
def insertSortedTs (x : Int) : List Int → List Int
  | [] => [x]
  | y :: ys => if x ≤ y then x :: y :: ys else y :: insertSortedTs x ys

/-- The already-voted check of RaftNode::vote: a leader_id is set and differs
from the requested candidate. -/
def deniesVote (leader : Option Nat) (vote_for : Nat) : Bool :=
  match leader with
  | some l => vote_for != l
  | none => false

/-- RaftNode::vote.  Returns the state after the call, the vote persisted via
the vote keeper (if any), and the response. -/
def vote (s : NodeState) (r : VoteRpc) : NodeState × Option VoteRpc × Response :=
  if s.current_term > r.term then (s, none, create_response s false)
  else
    let s1 :=
      if s.current_term < r.term then
        { s with role := NodeRole.candidate, current_term := r.term, voted_for_me := [] }
      else s
    if decide (s1.durable_ts > r.ts) || deniesVote s1.leader_id r.vote_for then
      (s1, none, create_response s1 false)
    else
      let s2 := { s1 with leader_id := some r.vote_for }
      (s2, some r, create_response s2 true)

/-- std::vector::resize on the buffered log: shrink by dropping a suffix, grow
by default-constructed records. -/
def resizeLog (l : List LogRecord) (n : Nat) : List LogRecord :=
  if n ≤ l.length then l.take n else l ++ List.replicate (n - l.length) default

/-- The truncation step of RaftNode::handle_append_rpcs for an overlapping
record at timestamp t: resize the buffered log, clamp flushed_index, set
next_ts = t and durable_ts = min(durable_ts, t - 1). -/
def truncateAt (s : NodeState) (t : Int) : NodeState :=
  let s1 :=
    if s.buffered_log.length > 0 then
      let newLen := (max 0 (t - (s.buffered_log.headD default).ts + 1)).toNat
      { s with buffered_log := resizeLog s.buffered_log newLen,
               flushed_index := min s.flushed_index newLen }
    else s
  { s1 with next_ts := t, durable_ts := min s1.durable_ts (t - 1) }

/-- One iteration of the record loop in RaftNode::handle_append_rpcs; the Bool
accumulates has_new_records. -/
def appendStep (acc : NodeState × Bool) (record : LogRecord) : NodeState × Bool :=
  let s := acc.1
  if record.ts ≤ s.applied_ts then acc
  else if s.next_ts > record.ts ∧ match_message s record = true then acc
  else
    let s1 := if s.next_ts > record.ts then truncateAt s record.ts else s
    if record.ts = s1.next_ts then
      ({ s1 with buffered_log := s1.buffered_log ++ [record], next_ts := s1.next_ts + 1 }, true)
    else (s1, acc.2)

/-- RaftNode::handle_append_rpcs.  Returns the post-call state, whether the
request was accepted (the successful response itself is produced after the
captured flush event fires), and has_new_records (whether the flusher is
triggered). -/
def handle_append_rpcs (s : NodeState) (sender : Nat) (msg : AppendRpcs) :
    NodeState × Bool × Bool :=
  if msg.term < s.current_term then (s, false, false)
  else
    let s0 := { s with current_term := msg.term, role := NodeRole.follower,
                       leader_id := some sender }
    let pr := msg.records.foldl appendStep (s0, false)
    let s2 := advance_to pr.1 (min msg.applied_ts pr.1.durable_ts)
    (s2, true, pr.2)

/-- Accumulator of the operation loop in RaftNode::handle_client_request. -/
structure ReqScan where
  fsm : List (String × String)
  entries : List Op
  writes : List Op
  has_reads : Bool
  has_writes : Bool
deriving DecidableEq, Repr

/-- One iteration of the operation loop of RaftNode::handle_client_request on
a leader: READs are served from the FSM (default-inserting missing keys),
WRITEs are collected into the prospective log record. -/
def scanStep (acc : ReqScan) (op : ClientOp) : ReqScan :=
  match op.type with
  | OpType.READ =>
    let pr := mapGet acc.fsm op.key
    { acc with fsm := pr.2, entries := acc.entries ++ [{ key := op.key, value := pr.1 }],
               has_reads := true }
  | OpType.WRITE =>
    { acc with writes := acc.writes ++ [{ key := op.key, value := op.value }],
               has_writes := true }

/-- The operation loop of RaftNode::handle_client_request on a leader. -/
def scanOps (fsm0 : List (String × String)) (ops : List ClientOp) : ReqScan :=
  ops.foldl scanStep
    { fsm := fsm0, entries := [], writes := [], has_reads := false, has_writes := false }

/-- RaftNode::handle_client_request.  Returns none where the code would trip
the assert on a follower without a known leader; for a replicated write the
returned response is the one the commit subscriber eventually completes with. -/
def handle_client_request (s : NodeState) (req : ClientRequest) :
    Option (NodeState × ClientResponse) :=
  match s.role with
  | NodeRole.follower =>
    match s.leader_id with
    | none => none
    | some l =>
      some (s, { success := false, should_retry := true, retry_to := l, entries := [] })
  | NodeRole.candidate =>
    some (s, { success := false, should_retry := false, retry_to := 0, entries := [] })
  | NodeRole.leader =>
    if s.applied_ts < s.read_barrier_ts then
      some (s, { success := false, should_retry := false, retry_to := 0, entries := [] })
    else
      let scan := scanOps s.fsm req.operations
      if scan.has_reads then
        some ({ s with fsm := scan.fsm },
              { success := !scan.has_writes, should_retry := false, retry_to := 0,
                entries := scan.entries })
      else
        let record : LogRecord := { ts := s.next_ts, operations := scan.writes }
        some ({ s with next_ts := s.next_ts + 1,
                       commit_subscribers := insertSortedTs s.next_ts s.commit_subscribers,
                       buffered_log := s.buffered_log ++ [record],
                       fsm := scan.fsm },
              { success := true, should_retry := false, retry_to := 0, entries := [] })

/-- std::set insertion (only the resulting size matters to the callers). -/
def insertSet (x : Nat) (l : List Nat) : List Nat :=
  if x ∈ l then l else l ++ [x]

/-- The vote-response continuation of RaftNode::initiate_elections: on a
successful response update the peer's progress, and if the term is unchanged
count the vote; on reaching a strict majority become leader, advance the
applied timestamp to the new quorum, set the read barrier, drop commit
subscribers, clamp peer durable timestamps and reset peer next timestamps. -/
def on_vote_response (N : Nat) (s : NodeState) (voter : Nat) (term : Nat)
    (resp : Response) : NodeState :=
  if resp.success then
    let s1 := { s with next_timestamps := s.next_timestamps.set voter resp.next_ts,
                       durable_timestamps := s.durable_timestamps.set voter resp.durable_ts }
    if s1.current_term = term then
      let s2 := { s1 with voted_for_me := insertSet voter s1.voted_for_me }
      if s2.voted_for_me.length > N / 2 then
        let s3 := advance_applied_timestamp { s2 with role := NodeRole.leader }
        { s3 with read_barrier_ts := s3.durable_ts,
                  commit_subscribers := [],
                  durable_timestamps := s3.durable_timestamps.map (fun t => min t s3.applied_ts),
                  next_timestamps := List.replicate N (s3.applied_ts + 1) }
      else s2
    else s1
  else s

/-- uint64_t decrement with wraparound, for recovery_snapshot_size_. -/
def decWrap (n : Nat) : Nat := if n = 0 then 2 ^ 64 - 1 else n - 1

/-- Open a fresh snapshot file and write its two int64 headers when the chunk
starts a new (term, applied_ts) recovery id (RaftNode::handle_recovery_snapshot). -/
def openIfNew (s : NodeState) (r : RecoverySnapshot) : NodeState :=
  if s.recovery_snapshot_id = some (r.term, r.applied_ts) then s
  else
    { s with recovery_snapshot_id := some (r.term, r.applied_ts),
             recovery_snapshot_size := r.size,
             recovery_snapshot_file :=
               { fd := some r.applied_ts,
                 writes := [SnapItem.num (Int.ofNat r.size), SnapItem.num r.applied_ts],
                 synced := false } }

/-- Apply one operation of a recovery chunk: update the live FSM, append a
single-op record to the snapshot file, decrement the remaining size. -/
def chunkStep (st : NodeState) (op : Op) : NodeState :=
  { st with fsm := setKV st.fsm op.key op.value,
            recovery_snapshot_file :=
              { st.recovery_snapshot_file with
                writes := st.recovery_snapshot_file.writes ++
                  [SnapItem.record { ts := 0, operations := [op] }] },
            recovery_snapshot_size := decWrap st.recovery_snapshot_size }

/-- Apply one chunk's operations in order. -/
def writeChunkOps (s : NodeState) (ops : List Op) : NodeState :=
  ops.foldl chunkStep s

/-- RaftNode::handle_recovery_snapshot. -/
def handle_recovery_snapshot (s : NodeState) (r : RecoverySnapshot) :
    NodeState × Response :=
  if s.role ≠ NodeRole.follower then (s, create_response s false)
  else if r.applied_ts ≤ s.applied_ts ∨ r.term ≠ s.current_term then
    (s, create_response s false)
  else if s.recovery_snapshot_id ≠ some (r.term, r.applied_ts) ∧ r.start = false then
    (s, create_response s false)
  else
    let s2 := writeChunkOps (openIfNew s r) r.operations
    if r.end_ then
      if s2.recovery_snapshot_size = 0 then
        let s3 := { s2 with
          recovery_snapshot_file := { s2.recovery_snapshot_file with synced := true },
          applied_ts := r.applied_ts,
          durable_ts := max s2.durable_ts r.applied_ts,
          next_ts := max s2.durable_ts r.applied_ts + 1 }
        (s3, create_response s3 true)
      else
        ({ s2 with recovery_snapshot_file := { fd := none, writes := [], synced := false },
                   recovery_snapshot_id := none },
         create_response s2 false)
    else (s2, create_response s2 true)

/-- RaftNode::flush, sequentialized: the first critical section erases the
applied backlog, collects to_flush and swaps the flush event; the records are
then written to the active changelog and synced; the second critical section
publishes durable_ts, advances the leader's applied timestamp and collects
fired subscribers; finally subscribers and the captured flush event complete.
Returns (state, records written and synced, fired subscriber timestamps,
completed flush-event epoch). -/
def flush (backlog : Int) (s : NodeState) : NodeState × List LogRecord × List Int × Nat :=
  let log := s.buffered_log
  let i := (log.takeWhile (fun r => decide (r.ts + backlog ≤ s.applied_ts))).length
  let to_flush := log.drop s.flushed_index
  let log2 := log.drop i
  let durable2 : Int :=
    match log2.getLast? with
    | some r => r.ts
    | none => s.durable_ts
  let completed := s.flush_epoch
  let s1 := { s with buffered_log := log2, flushed_index := log2.length,
                     flush_epoch := s.flush_epoch + 1, durable_ts := durable2 }
  if s1.role = NodeRole.leader then
    let s2 := advance_applied_timestamp s1
    let fired := s2.commit_subscribers.takeWhile (fun t => decide (t ≤ s2.applied_ts))
    let remaining := s2.commit_subscribers.dropWhile (fun t => decide (t ≤ s2.applied_ts))
    ({ s2 with commit_subscribers := remaining }, to_flush, fired, completed)
  else (s1, to_flush, [], completed)

/-- A snapshot file on disk as the recovery reader sees it: the two int64
headers (none when either read fails) and the successive results of
read_log_record on the body (none marks EOF or a parse failure). -/
structure SnapshotFile where
  header : Option (Nat × Int)
  body : List (Option LogRecord)
deriving DecidableEq, Repr

/-- The record loop of RaftNode::read_snapshot: read the declared number of
records, folding their operations into the FSM; fail on a missing or
unparsable record, keeping the partially filled FSM. -/
def readRecords (fsm : List (String × String)) :
    Nat → List (Option LogRecord) → Bool × List (String × String)
  | 0, _ => (true, fsm)
  | Nat.succ _, [] => (false, fsm)
  | Nat.succ _, none :: _ => (false, fsm)
  | Nat.succ n, some record :: rest => readRecords (applyRecord fsm record) n rest

/-- RaftNode::read_snapshot — ts and fsm are in-out references in the code, so
the returned ts and fsm reflect the partial progress made before a failure. -/
def read_snapshot (f : SnapshotFile) (ts : Int) (fsm : List (String × String)) :
    Bool × Int × List (String × String) :=
  match f.header with
  | none => (false, ts, fsm)
  | some (size, applied) =>
    let pr := readRecords fsm size f.body
    (pr.1, applied, pr.2)

/-- The slice of node state that the snapshot phase of RaftNode::recover
touches. -/
structure RecoveredState where
  applied_ts : Int
  durable_ts : Int
  next_ts : Int
  fsm : List (String × String)
deriving DecidableEq, Repr

/-- The snapshot-loading phase of RaftNode::recover, over the discovered
snapshots ordered newest first: read the newest snapshot; on success set
durable_ts and next_ts from the recovered applied_ts and stop; on failure
clear the FSM and try the next older snapshot. -/
def snapshotPhase : List SnapshotFile → RecoveredState → RecoveredState
  | [], st => st
  | f :: older, st =>
    let pr := read_snapshot f st.applied_ts st.fsm
    if pr.1 then
      { st with applied_ts := pr.2.1, durable_ts := pr.2.1, next_ts := pr.2.1 + 1,
                fsm := pr.2.2 }
    else snapshotPhase older { st with applied_ts := pr.2.1, fsm := [] }

/-- The fresh state the snapshot phase starts from. -/
def initialRecovered : RecoveredState :=
  { applied_ts := -1, durable_ts := -1, next_ts := 0, fsm := [] }

/-- Contiguity of a record list: timestamps increase by exactly one from b. -/
def contigFrom : Int → List LogRecord → Bool
  | _, [] => true
  | b, r :: rest => r.ts == b && contigFrom (b + 1) rest

/-- The buffered-log invariant of the data model: when non-empty the records
carry contiguous strictly increasing timestamps, the first is at most
durable_ts + 1 and the last equals next_ts - 1. -/
def logInvariant (s : NodeState) : Bool :=
  match s.buffered_log with
  | [] => true
  | r0 :: _ =>
    contigFrom r0.ts s.buffered_log &&
    decide (r0.ts ≤ s.durable_ts + 1) &&
    ((s.buffered_log.getLast?.getD default).ts == s.next_ts - 1)

/-- The record at ts 0 writing a := 1, used for concrete evaluations. -/
def rec0 : LogRecord := { ts := 0, operations := [{ key := "a", value := "1" }] }

/-- A record at ts 0 with different content (a := 2). -/
def rec0b : LogRecord := { ts := 0, operations := [{ key := "a", value := "2" }] }

/-- A closed recovery-snapshot file with nothing written. -/
def emptySnapFile : SnapFile := { fd := none, writes := [], synced := false }

/-- A follower of a 3-node cluster in term 1 holding the single buffered,
already flushed record rec0 (durable_ts = 0, next_ts = 1, nothing applied). -/
def baseState : NodeState :=
  { id := 0, current_term := 1, role := NodeRole.follower, leader_id := some 1,
    durable_ts := 0, applied_ts := -1, next_ts := 1, read_barrier_ts := -1,
    voted_for_me := [], next_timestamps := [0, 0, 0], durable_timestamps := [-1, -1, -1],
    commit_subscribers := [], flushed_index := 1, buffered_log := [rec0], flush_epoch := 0,
    fsm := [], recovery_snapshot_id := none, recovery_snapshot_size := 0,
    recovery_snapshot_file := emptySnapFile }

/-- A snapshot file whose header parses as (1 entry, applied_ts 5) but whose
body fails to parse. -/
def snapFail : SnapshotFile := { header := some (1, 5), body := [none] }

/-- A node about to flush: one unflushed buffered record at ts 5 that is
already applied (applied_ts = 5) while durable_ts is still 4, with a zero
applied backlog, so the flush cycle erases the whole buffer. -/
def flushState : NodeState :=
  { baseState with buffered_log := [{ ts := 5, operations := [] }], flushed_index := 0,
                   applied_ts := 5, durable_ts := 4, next_ts := 6 }

/-- A leader of a 3-node cluster used to instantiate leader-path theorems:
two contiguous buffered records at ts 0 and 1, durable on self and peer 1. -/
def leaderState : NodeState :=
  { baseState with role := NodeRole.leader, leader_id := some 0,
                   buffered_log := [rec0, { ts := 1, operations := [{ key := "b", value := "2" }] }],
                   durable_ts := 1, next_ts := 2, flushed_index := 2,
                   durable_timestamps := [1, 1, -1], next_timestamps := [2, 2, 0] }

/-- leaderState with two commit subscribers, used to instantiate the flush
cycle on a leader. -/
def flushLeader : NodeState :=
  { leaderState with commit_subscribers := [0, 1], applied_ts := -1, flushed_index := 0 }

/-- A candidate one vote short of a majority in the 3-node cluster, used to
instantiate the leader-transition step. -/
def electState : NodeState :=
  { baseState with role := NodeRole.candidate, leader_id := some 0, voted_for_me := [0] }

/-- A single-chunk recovery snapshot (term 1, applied_ts 3, one operation)
carrying both the start and end markers. -/
def rSnap : RecoverySnapshot :=
  { term := 1, applied_ts := 3, size := 1, start := true, end_ := true,
    operations := [{ key := "x", value := "9" }] }

/-- A client request mixing a READ of a with a WRITE of c. -/
def reqMix : ClientRequest :=
  { operations := [{ type := OpType.READ, key := "a", value := "" },
                   { type := OpType.WRITE, key := "c", value := "3" }] }

/-- What C4 asserts of advance_applied_timestamp on a state whose buffered log
is contiguous from b: the node's own durable_ts is written into slot id of the
per-peer durable timestamps, the quorum value q is the element at index N/2 of
their ascending sort, applied_ts moves to the largest buffered ts that is at
most q (staying put when no buffered record qualifies), and exactly the
records from applied_ts + 1 through that point are applied to the FSM in
order. -/
def advanceQuorumSpec (s : NodeState) (b : Int) (N : Nat) : Prop :=
  (advance_applied_timestamp s).durable_timestamps = s.durable_timestamps.set s.id s.durable_ts ∧
  quorumTs s =
    (List.insertionSort (fun a b => a ≤ b) (s.durable_timestamps.set s.id s.durable_ts)).getD
      (N / 2) 0 ∧
  (advance_applied_timestamp s).durable_ts = s.durable_ts ∧
  (advance_applied_timestamp s).next_ts = s.next_ts ∧
  (advance_applied_timestamp s).buffered_log = s.buffered_log ∧
  (advance_applied_timestamp s).applied_ts =
    (if s.buffered_log.isEmpty then s.applied_ts
     else max s.applied_ts (min (quorumTs s) (b + (s.buffered_log.length : Int) - 1))) ∧
  (advance_applied_timestamp s).fsm =
    ((s.buffered_log.drop (s.applied_ts - b + 1).toNat).takeWhile
       (fun r => decide (r.ts ≤ quorumTs s))).foldl applyRecord s.fsm

/-- What C5 asserts of handle_client_request: the follower, candidate,
below-read-barrier and read-serving cases, each leaving next_ts, buffered_log
and commit_subscribers (indeed the whole state except the FSM) unchanged. -/
def clientRequestCases (s : NodeState) (req : ClientRequest) : Prop :=
  (∀ l, s.role = NodeRole.follower → s.leader_id = some l →
     handle_client_request s req =
       some (s, { success := false, should_retry := true, retry_to := l, entries := [] })) ∧
  (s.role = NodeRole.candidate →
     handle_client_request s req =
       some (s, { success := false, should_retry := false, retry_to := 0, entries := [] })) ∧
  (s.role = NodeRole.leader → s.applied_ts < s.read_barrier_ts →
     handle_client_request s req =
       some (s, { success := false, should_retry := false, retry_to := 0, entries := [] })) ∧
  (s.role = NodeRole.leader → ¬ s.applied_ts < s.read_barrier_ts →
     (req.operations.any fun op => op.type == OpType.READ) = true →
     handle_client_request s req =
       some ({ s with fsm := (scanOps s.fsm req.operations).fsm },
             { success := !(req.operations.any fun op => op.type == OpType.WRITE),
               should_retry := false, retry_to := 0,
               entries := (scanOps s.fsm req.operations).entries }) ∧
     ((scanOps s.fsm req.operations).entries.map fun e => e.key) =
       ((req.operations.filter fun op => op.type == OpType.READ).map fun op => op.key))

/-- What C6 asserts of the leader transition inside the vote-response handler:
becoming leader runs quorum advancement, sets the read barrier to the durable
timestamp held when the majority was reached, clears the commit subscribers,
clamps every per-peer durable timestamp to the advanced applied_ts and resets
every per-peer next timestamp to applied_ts + 1. -/
def leaderTransitionSpec (N : Nat) (s : NodeState) (voter term : Nat) (resp : Response) : Prop :=
  let s1 := { s with next_timestamps := s.next_timestamps.set voter resp.next_ts,
                     durable_timestamps := s.durable_timestamps.set voter resp.durable_ts }
  let s2 := { s1 with voted_for_me := insertSet voter s1.voted_for_me }
  let s3 := advance_applied_timestamp { s2 with role := NodeRole.leader }
  let out := on_vote_response N s voter term resp
  out.role = NodeRole.leader ∧
  out.applied_ts = s3.applied_ts ∧
  out.fsm = s3.fsm ∧
  out.read_barrier_ts = s.durable_ts ∧
  out.commit_subscribers = [] ∧
  out.durable_timestamps =
    ((s.durable_timestamps.set voter resp.durable_ts).set s.id s.durable_ts).map
      (fun t => min t s3.applied_ts) ∧
  out.next_timestamps = List.replicate N (s3.applied_ts + 1)

/-- What C7 asserts of handle_recovery_snapshot: the four reject conditions
reply failure with the state untouched, and on an end chunk the reply is
success exactly when the remaining declared size reaches zero, in which case
the snapshot file is synced and applied_ts, durable_ts, next_ts are updated;
a non-zero remainder closes the file, clears the in-progress id and fails. -/
def recoverySnapshotSpec (s : NodeState) (r : RecoverySnapshot) : Prop :=
  (s.role ≠ NodeRole.follower → handle_recovery_snapshot s r = (s, create_response s false)) ∧
  (r.applied_ts ≤ s.applied_ts → handle_recovery_snapshot s r = (s, create_response s false)) ∧
  (r.term ≠ s.current_term → handle_recovery_snapshot s r = (s, create_response s false)) ∧
  (s.recovery_snapshot_id ≠ some (r.term, r.applied_ts) → r.start = false →
     handle_recovery_snapshot s r = (s, create_response s false)) ∧
  (s.role = NodeRole.follower → s.applied_ts < r.applied_ts → r.term = s.current_term →
   (s.recovery_snapshot_id = some (r.term, r.applied_ts) ∨ r.start = true) → r.end_ = true →
     ((handle_recovery_snapshot s r).2.success = true ↔
        (writeChunkOps (openIfNew s r) r.operations).recovery_snapshot_size = 0) ∧
     ((writeChunkOps (openIfNew s r) r.operations).recovery_snapshot_size = 0 →
        (handle_recovery_snapshot s r).1.applied_ts = r.applied_ts ∧
        (handle_recovery_snapshot s r).1.durable_ts = max s.durable_ts r.applied_ts ∧
        (handle_recovery_snapshot s r).1.next_ts = max s.durable_ts r.applied_ts + 1 ∧
        (handle_recovery_snapshot s r).1.recovery_snapshot_file.synced = true) ∧
     ((writeChunkOps (openIfNew s r) r.operations).recovery_snapshot_size ≠ 0 →
        (handle_recovery_snapshot s r).2.success = false ∧
        (handle_recovery_snapshot s r).1.recovery_snapshot_file.fd = none ∧
        (handle_recovery_snapshot s r).1.recovery_snapshot_id = none))

/-- What the amended C9 asserts of a flush cycle: exactly the records at
indices [flushed_index, end) of the buffered log at collection time are
written and synced; the flush event captured at the start of the cycle is the
one completed; durable_ts becomes the ts of the last record remaining after
the applied-backlog prefix erasure (keeping the previous durable_ts when the
buffer is then empty); and on a leader exactly the subscribers with ts up to
the newly advanced applied_ts fire. -/
def flushCycleSpec (backlog : Int) (s : NodeState) : Prop :=
  let i := (s.buffered_log.takeWhile fun r => decide (r.ts + backlog ≤ s.applied_ts)).length
  let log2 := s.buffered_log.drop i
  (flush backlog s).2.1 = s.buffered_log.drop s.flushed_index ∧
  (flush backlog s).2.2.2 = s.flush_epoch ∧
  (flush backlog s).1.flush_epoch = s.flush_epoch + 1 ∧
  (flush backlog s).1.durable_ts =
    (match log2.getLast? with
     | some r => r.ts
     | none => s.durable_ts) ∧
  (flush backlog s).1.buffered_log = log2 ∧
  (flush backlog s).1.flushed_index = log2.length ∧
  (s.role ≠ NodeRole.leader →
     (flush backlog s).2.2.1 = [] ∧
     (flush backlog s).1.commit_subscribers = s.commit_subscribers ∧
     (flush backlog s).1.applied_ts = s.applied_ts) ∧
  (s.role = NodeRole.leader →
     ∀ t, t ∈ (flush backlog s).2.2.1 ↔ t ∈ s.commit_subscribers ∧
       t ≤ (flush backlog s).1.applied_ts)

/-! ### Frame lemmas for advance_to and advance_applied_timestamp -/

theorem advance_to_frame (s : NodeState) (ts : Int) :
    (advance_to s ts).id = s.id ∧
    (advance_to s ts).current_term = s.current_term ∧
    (advance_to s ts).role = s.role ∧
    (advance_to s ts).leader_id = s.leader_id ∧
    (advance_to s ts).durable_ts = s.durable_ts ∧
    (advance_to s ts).next_ts = s.next_ts ∧
    (advance_to s ts).read_barrier_ts = s.read_barrier_ts ∧
    (advance_to s ts).voted_for_me = s.voted_for_me ∧
    (advance_to s ts).next_timestamps = s.next_timestamps ∧
    (advance_to s ts).durable_timestamps = s.durable_timestamps ∧
    (advance_to s ts).commit_subscribers = s.commit_subscribers ∧
    (advance_to s ts).flushed_index = s.flushed_index ∧
    (advance_to s ts).buffered_log = s.buffered_log ∧
    (advance_to s ts).flush_epoch = s.flush_epoch := by
  simp only [advance_to]
  split
  · simp
  · split <;> simp

theorem advance_applied_frame (s : NodeState) :
    (advance_applied_timestamp s).id = s.id ∧
    (advance_applied_timestamp s).current_term = s.current_term ∧
    (advance_applied_timestamp s).role = s.role ∧
    (advance_applied_timestamp s).leader_id = s.leader_id ∧
    (advance_applied_timestamp s).durable_ts = s.durable_ts ∧
    (advance_applied_timestamp s).next_ts = s.next_ts ∧
    (advance_applied_timestamp s).read_barrier_ts = s.read_barrier_ts ∧
    (advance_applied_timestamp s).voted_for_me = s.voted_for_me ∧
    (advance_applied_timestamp s).next_timestamps = s.next_timestamps ∧
    (advance_applied_timestamp s).durable_timestamps =
      s.durable_timestamps.set s.id s.durable_ts ∧
    (advance_applied_timestamp s).commit_subscribers = s.commit_subscribers ∧
    (advance_applied_timestamp s).flushed_index = s.flushed_index ∧
    (advance_applied_timestamp s).buffered_log = s.buffered_log ∧
    (advance_applied_timestamp s).flush_epoch = s.flush_epoch := by
  unfold advance_applied_timestamp
  have h := advance_to_frame
    { s with durable_timestamps := s.durable_timestamps.set s.id s.durable_ts } (quorumTs s)
  simpa using h

/-! ### Contiguity and loop characterizations -/

theorem contigFrom_drop (n : Nat) : ∀ (l : List LogRecord) (b : Int),
    contigFrom b l = true → contigFrom (b + (n : Int)) (l.drop n) = true := by
  induction n with
  | zero => intro l b h; simpa using h
  | succ m ih =>
    intro l b h
    cases l with
    | nil => simp [contigFrom]
    | cons r rest =>
      simp only [contigFrom, Bool.and_eq_true, beq_iff_eq] at h
      have h2 := ih rest (b + 1) h.2
      rw [List.drop_succ_cons]
      have he : b + ((m + 1 : Nat) : Int) = b + 1 + (m : Nat) := by push_cast; ring
      rw [he]
      exact h2

theorem advanceFrom_eq (q : Int) : ∀ (l : List LogRecord) (c : Int)
    (fsm : List (String × String)), contigFrom c l = true →
    advanceFrom q l fsm (c - 1) =
      ((l.takeWhile fun r => decide (r.ts ≤ q)).foldl applyRecord fsm,
       c - 1 + ((l.takeWhile fun r => decide (r.ts ≤ q)).length : Int)) := by
  intro l
  induction l with
  | nil => intro c fsm h; simp [advanceFrom]
  | cons r rest ih =>
    intro c fsm h
    simp only [contigFrom, Bool.and_eq_true, beq_iff_eq] at h
    obtain ⟨hr, hrest⟩ := h
    by_cases hq : r.ts ≤ q
    · have h2 := ih (c + 1) (applyRecord fsm r) hrest
      have hc : c + 1 - 1 = c := by ring
      rw [hc] at h2
      simp only [advanceFrom]
      rw [if_pos (by omega : q ≥ r.ts), hr, h2]
      simp only [List.takeWhile_cons, hq, decide_True, if_true, List.foldl_cons,
        List.length_cons, Prod.mk.injEq]
      refine ⟨trivial, ?_⟩
      push_cast
      ring
    · simp only [advanceFrom]
      rw [if_neg (by omega : ¬ q ≥ r.ts)]
      simp [List.takeWhile_cons, hq]

theorem takeWhile_length_contig (q : Int) : ∀ (l : List LogRecord) (c : Int),
    contigFrom c l = true →
    ((l.takeWhile fun r => decide (r.ts ≤ q)).length : Int) =
      max 0 (min (l.length : Int) (q + 1 - c)) := by
  intro l
  induction l with
  | nil => intro c h; simp
  | cons r rest ih =>
    intro c h
    simp only [contigFrom, Bool.and_eq_true, beq_iff_eq] at h
    obtain ⟨hr, hrest⟩ := h
    by_cases hq : r.ts ≤ q
    · have h2 := ih (c + 1) hrest
      have hcq : c ≤ q := hr ▸ hq
      simp only [List.takeWhile_cons, hq, decide_True, if_true, List.length_cons]
      push_cast at h2 ⊢
      omega
    · have hcq : ¬ c ≤ q := hr ▸ hq
      simp only [List.takeWhile_cons, hq, decide_False, Bool.false_eq_true, if_false,
        List.length_nil, List.length_cons]
      push_cast
      omega

theorem mem_takeWhile_le_iff (A : Int) : ∀ (l : List Int), l.Pairwise (· ≤ ·) →
    ∀ t : Int, (t ∈ l.takeWhile fun x => decide (x ≤ A)) ↔ t ∈ l ∧ t ≤ A := by
  intro l
  induction l with
  | nil => intro _ t; simp
  | cons y ys ih =>
    intro hp t
    rw [List.pairwise_cons] at hp
    obtain ⟨hy, hys⟩ := hp
    have hiff := ih hys t
    by_cases hA : y ≤ A
    · simp only [List.takeWhile_cons, hA, decide_True, if_true, List.mem_cons, hiff]
      constructor
      · rintro (rfl | ⟨h1, h2⟩)
        · exact ⟨Or.inl rfl, hA⟩
        · exact ⟨Or.inr h1, h2⟩
      · rintro ⟨rfl | h1, h2⟩
        · exact Or.inl rfl
        · exact Or.inr ⟨h1, h2⟩
    · simp only [List.takeWhile_cons, hA, decide_False, Bool.false_eq_true, if_false,
        List.not_mem_nil, List.mem_cons, false_iff, not_and]
      rintro (rfl | h1) h2
      · exact hA h2
      · exact hA (le_trans (hy t h1) h2)

/-! ### Lemmas about the client-request scan, the recovery chunk fold and the
FSM association list -/

theorem scanFold_has_reads : ∀ (ops : List ClientOp) (acc : ReqScan),
    (ops.foldl scanStep acc).has_reads =
      (acc.has_reads || ops.any fun op => op.type == OpType.READ) := by
  intro ops
  induction ops with
  | nil => intro acc; simp
  | cons op rest ih =>
    intro acc
    rw [List.foldl_cons, List.any_cons, ih]
    cases h : op.type <;>
      simp [scanStep, h, Bool.or_assoc,
        show (OpType.WRITE == OpType.READ) = false from rfl]

theorem scanFold_has_writes : ∀ (ops : List ClientOp) (acc : ReqScan),
    (ops.foldl scanStep acc).has_writes =
      (acc.has_writes || ops.any fun op => op.type == OpType.WRITE) := by
  intro ops
  induction ops with
  | nil => intro acc; simp
  | cons op rest ih =>
    intro acc
    rw [List.foldl_cons, List.any_cons, ih]
    cases h : op.type <;>
      simp [scanStep, h, Bool.or_assoc,
        show (OpType.READ == OpType.WRITE) = false from rfl]

theorem scanFold_entries_keys : ∀ (ops : List ClientOp) (acc : ReqScan),
    ((ops.foldl scanStep acc).entries.map fun e => e.key) =
      (acc.entries.map fun e => e.key) ++
        ((ops.filter fun op => op.type == OpType.READ).map fun op => op.key) := by
  intro ops
  induction ops with
  | nil => intro acc; simp
  | cons op rest ih =>
    intro acc
    rw [List.foldl_cons, List.filter_cons]
    cases h : op.type
    · rw [ih]
      simp [scanStep, h]
    · rw [ih]
      simp [scanStep, h]

theorem writeChunkOps_frame : ∀ (ops : List Op) (s : NodeState),
    (writeChunkOps s ops).durable_ts = s.durable_ts ∧
    (writeChunkOps s ops).applied_ts = s.applied_ts ∧
    (writeChunkOps s ops).next_ts = s.next_ts ∧
    (writeChunkOps s ops).role = s.role ∧
    (writeChunkOps s ops).current_term = s.current_term ∧
    (writeChunkOps s ops).recovery_snapshot_id = s.recovery_snapshot_id := by
  intro ops
  induction ops with
  | nil => intro s; simp [writeChunkOps]
  | cons op rest ih =>
    intro s
    have h := ih (chunkStep s op)
    simpa [writeChunkOps, List.foldl_cons, chunkStep] using h

theorem lookupKV_append_missing (k : String) : ∀ (m : List (String × String)),
    lookupKV m k = none → lookupKV (m ++ [(k, "")]) k = some "" := by
  intro m
  induction m with
  | nil => intro _; simp [lookupKV]
  | cons p rest ih =>
    intro h
    obtain ⟨a, b⟩ := p
    simp only [lookupKV] at h
    simp only [List.cons_append, lookupKV]
    by_cases hk : a = k
    · rw [if_pos hk] at h
      cases h
    · rw [if_neg hk] at h ⊢
      exact ih h

/-! ## Claim theorems -/

/-- C1: refuted on the code (code_bug).  A follower holding rec0 = (ts 0,
a := 1) that receives an Append carrying the conflicting record rec0b =
(ts 0, a := 2) inside its buffered window keeps its own entry untouched:
match_message returns true exactly when the serialized forms differ, so the
conflicting record is skipped (and next_ts, durable_ts, flushed_index stay
put) instead of being truncated from ts 0 and accepted as the claim states. -/
theorem append_conflicting_record_is_skipped :
    rec0 ≠ rec0b ∧
    (handle_append_rpcs baseState 1
        { term := 1, applied_ts := -1, records := [rec0b] }).1.buffered_log = [rec0] ∧
    (handle_append_rpcs baseState 1
        { term := 1, applied_ts := -1, records := [rec0b] }).1.next_ts = 1 ∧
    (handle_append_rpcs baseState 1
        { term := 1, applied_ts := -1, records := [rec0b] }).1.durable_ts = 0 ∧
    (handle_append_rpcs baseState 1
        { term := 1, applied_ts := -1, records := [rec0b] }).1.flushed_index = 1 := by
  decide

/-- C2: refuted on the code (code_bug).  baseState satisfies the buffered-log
invariant, yet re-sending its own record rec0 in an Append makes the handler
enter the truncation branch (match_message is false on an identical record),
resize the log to still include the entry at ts 0, reset next_ts to 0 and then
append rec0 again: the resulting log [rec0, rec0] repeats ts 0, so the
timestamps are no longer strictly increasing and the last entry no longer
equals next_ts - 1. -/
theorem append_identical_record_breaks_log_invariant :
    logInvariant baseState = true ∧
    (handle_append_rpcs baseState 1
        { term := 1, applied_ts := -1, records := [rec0] }).1.buffered_log = [rec0, rec0] ∧
    logInvariant (handle_append_rpcs baseState 1
        { term := 1, applied_ts := -1, records := [rec0] }).1 = false := by
  decide

/-- C8: refuted on the code (code_bug).  A directory with a single snapshot
whose header parses as (1 entry, applied_ts 5) but whose body does not parse
leaves applied_ts = 5 after the snapshot phase of recover: read_snapshot
writes the header's applied_ts through its out-reference before validating
the body, and the failure path clears only the FSM, so the initial
applied_ts = -1 is not preserved as the claim states. -/
theorem recover_keeps_applied_ts_of_unparsable_snapshot :
    snapshotPhase [snapFail] initialRecovered =
      { applied_ts := 5, durable_ts := -1, next_ts := 0, fsm := [] } ∧
    (snapshotPhase [snapFail] initialRecovered).applied_ts ≠ initialRecovered.applied_ts := by
  decide

/-- C9: counterexample to the claim as stated.  In flushState the buffered log
at collection time is the single unflushed record at ts 5 (which this cycle
collects, writes and syncs), yet because the applied-backlog erasure empties
the buffer before new_durable_ts is computed, durable_ts stays 4 instead of
becoming the ts of the last record at collection time. -/
theorem flush_durable_ts_not_collection_time :
    (flushState.buffered_log.getLast?.getD default).ts = 5 ∧
    (flush 0 flushState).2.1 = [{ ts := 5, operations := [] }] ∧
    (flush 0 flushState).1.durable_ts = 4 := by
  decide

/-- C3: confirmed.  For a Vote request whose term is at least the callee's
current term, the reply is a failure exactly when the callee's durable_ts
exceeds the candidate's ts or a leader_id different from the candidate is
already set; otherwise the vote is persisted via the vote keeper, leader_id
becomes the candidate and the reply succeeds.  The first disjunct is the
claim's corollary: a candidate whose advertised ts is below the callee's
durable_ts never receives a grant. -/
theorem vote_grant_characterization (s : NodeState) (r : VoteRpc)
    (hterm : s.current_term ≤ r.term) :
    ((vote s r).2.2.success = false ↔
      (s.durable_ts > r.ts ∨ deniesVote s.leader_id r.vote_for = true)) ∧
    ((vote s r).2.2.success = true →
      (vote s r).2.1 = some r ∧ (vote s r).1.leader_id = some r.vote_for) := by
  have hng : ¬ s.current_term > r.term := by omega
  by_cases hc : (decide (s.durable_ts > r.ts) || deniesVote s.leader_id r.vote_for) = true
  · have hcp : s.durable_ts > r.ts ∨ deniesVote s.leader_id r.vote_for = true := by
      rcases Bool.or_eq_true_iff.mp hc with h | h
      · exact Or.inl (of_decide_eq_true h)
      · exact Or.inr h
    by_cases hlt : s.current_term < r.term <;>
      simp [vote, hng, hlt, hc, create_response, hcp]
  · have hcp : ¬ (s.durable_ts > r.ts ∨ deniesVote s.leader_id r.vote_for = true) := by
      intro h
      apply hc
      rcases h with h | h
      · exact Bool.or_eq_true_iff.mpr (Or.inl (decide_eq_true h))
      · exact Bool.or_eq_true_iff.mpr (Or.inr h)
    by_cases hlt : s.current_term < r.term <;>
      simp [vote, hng, hlt, hc, create_response, hcp]

/-- C3 witness: baseState (term 1, durable_ts 0, already voted for node 1)
grants a vote to node 1 asking with term 1 and ts 0. -/
theorem vote_grant_characterization_witness :
    baseState.current_term ≤ (1 : Nat) ∧
    (((vote baseState { term := 1, ts := 0, vote_for := 1 }).2.2.success = false ↔
       (baseState.durable_ts > 0 ∨ deniesVote baseState.leader_id 1 = true)) ∧
     ((vote baseState { term := 1, ts := 0, vote_for := 1 }).2.2.success = true →
       (vote baseState { term := 1, ts := 0, vote_for := 1 }).2.1 =
         some { term := 1, ts := 0, vote_for := 1 } ∧
       (vote baseState { term := 1, ts := 0, vote_for := 1 }).1.leader_id = some 1)) :=
  ⟨by decide, vote_grant_characterization baseState { term := 1, ts := 0, vote_for := 1 }
    (by decide)⟩

/-- C10: confirmed.  On a leader at or past its read barrier, a READ of a key
absent from the FSM answers with the empty string and, as a side effect,
inserts that key bound to the empty string into the FSM map. -/
theorem leader_read_missing_key_inserts_empty (s : NodeState) (k v : String)
    (hrole : s.role = NodeRole.leader)
    (hbar : ¬ s.applied_ts < s.read_barrier_ts)
    (hmiss : lookupKV s.fsm k = none) :
    handle_client_request s { operations := [{ type := OpType.READ, key := k, value := v }] } =
      some ({ s with fsm := s.fsm ++ [(k, "")] },
            { success := true, should_retry := false, retry_to := 0,
              entries := [{ key := k, value := "" }] }) ∧
    lookupKV ({ s with fsm := s.fsm ++ [(k, "")] }).fsm k = some "" := by
  constructor
  · simp only [handle_client_request, hrole]
    rw [if_neg hbar]
    simp [scanOps, scanStep, mapGet, hmiss]
  · exact lookupKV_append_missing k s.fsm hmiss

/-- C10 witness: on leaderState (read barrier -1, applied -1) a READ of the
absent key c returns the empty string and inserts (c, "") into the FSM. -/
theorem leader_read_missing_key_inserts_empty_witness :
    leaderState.role = NodeRole.leader ∧
    ¬ leaderState.applied_ts < leaderState.read_barrier_ts ∧
    lookupKV leaderState.fsm "c" = none ∧
    (handle_client_request leaderState
        { operations := [{ type := OpType.READ, key := "c", value := "" }] } =
      some ({ leaderState with fsm := leaderState.fsm ++ [("c", "")] },
            { success := true, should_retry := false, retry_to := 0,
              entries := [{ key := "c", value := "" }] }) ∧
     lookupKV ({ leaderState with fsm := leaderState.fsm ++ [("c", "")] }).fsm "c" = some "") :=
  ⟨by decide, by decide, by decide,
   leader_read_missing_key_inserts_empty leaderState "c" "" (by decide) (by decide) (by decide)⟩

/-- C5: confirmed.  handle_client_request returns the follower redirect, the
candidate rejection, the below-read-barrier rejection, and serves READs from
the FSM with success set exactly when no WRITE is mixed in, replicating
nothing; in each of these cases next_ts, buffered_log and commit_subscribers
are untouched (in the read case only the FSM may change, by C10's
default-insertion). -/
theorem handle_client_request_cases (s : NodeState) (req : ClientRequest) :
    clientRequestCases s req := by
  unfold clientRequestCases
  refine ⟨?_, ?_, ?_, ?_⟩
  · intro l hrole hl
    simp [handle_client_request, hrole, hl]
  · intro hrole
    simp [handle_client_request, hrole]
  · intro hrole hbar
    simp only [handle_client_request, hrole]
    rw [if_pos hbar]
  · intro hrole hbar hread
    have hr : (scanOps s.fsm req.operations).has_reads = true := by
      rw [scanOps, scanFold_has_reads]
      simp [hread]
    have hw : (scanOps s.fsm req.operations).has_writes =
        (req.operations.any fun op => op.type == OpType.WRITE) := by
      rw [scanOps, scanFold_has_writes]
      simp
    constructor
    · simp only [handle_client_request, hrole]
      rw [if_neg hbar, if_pos hr, hw]
    · rw [scanOps, scanFold_entries_keys]
      simp

/-- C5 witness: on leaderState a request mixing a READ of a with a WRITE of c
answers the read from the FSM (default-inserting a), reports success = false
because a WRITE is mixed in, and replicates nothing. -/
theorem handle_client_request_cases_witness :
    leaderState.role = NodeRole.leader ∧
    ¬ leaderState.applied_ts < leaderState.read_barrier_ts ∧
    (reqMix.operations.any fun op => op.type == OpType.READ) = true ∧
    (handle_client_request leaderState reqMix =
       some ({ leaderState with fsm := (scanOps leaderState.fsm reqMix.operations).fsm },
             { success := !(reqMix.operations.any fun op => op.type == OpType.WRITE),
               should_retry := false, retry_to := 0,
               entries := (scanOps leaderState.fsm reqMix.operations).entries }) ∧
     ((scanOps leaderState.fsm reqMix.operations).entries.map fun e => e.key) =
       ((reqMix.operations.filter fun op => op.type == OpType.READ).map fun op => op.key)) :=
  ⟨by decide, by decide, by decide,
   (handle_client_request_cases leaderState reqMix).2.2.2 (by decide) (by decide) (by decide)⟩

theorem openIfNew_frame (s : NodeState) (r : RecoverySnapshot) :
    (openIfNew s r).durable_ts = s.durable_ts ∧
    (openIfNew s r).applied_ts = s.applied_ts ∧
    (openIfNew s r).next_ts = s.next_ts ∧
    (openIfNew s r).role = s.role ∧
    (openIfNew s r).current_term = s.current_term := by
  unfold openIfNew
  split <;> simp

/-- C7: confirmed.  handle_recovery_snapshot rejects without touching the
state when the node is not a follower, when the chunk's applied_ts is not
beyond the local one, when the term differs, or when a chunk opening a new
(term, applied_ts) id lacks the start marker; on an end chunk it succeeds
exactly when the remaining declared size is zero, then syncing the snapshot
file and setting applied_ts, durable_ts and next_ts, while a non-zero
remainder closes the file, clears the in-progress id and fails. -/
theorem handle_recovery_snapshot_cases (s : NodeState) (r : RecoverySnapshot) :
    recoverySnapshotSpec s r := by
  have hdurable : (writeChunkOps (openIfNew s r) r.operations).durable_ts = s.durable_ts := by
    rw [(writeChunkOps_frame r.operations (openIfNew s r)).1, (openIfNew_frame s r).1]
  unfold recoverySnapshotSpec
  refine ⟨?_, ?_, ?_, ?_, ?_⟩
  · intro h
    simp [handle_recovery_snapshot, h]
  · intro h
    by_cases h1 : s.role = NodeRole.follower
    · simp [handle_recovery_snapshot, h1, h]
    · simp [handle_recovery_snapshot, h1]
  · intro h
    by_cases h1 : s.role = NodeRole.follower
    · by_cases h2 : r.applied_ts ≤ s.applied_ts
      · simp [handle_recovery_snapshot, h1, h2]
      · simp [handle_recovery_snapshot, h1, h2, h]
    · simp [handle_recovery_snapshot, h1]
  · intro hid hstart
    by_cases h1 : s.role = NodeRole.follower
    · by_cases h2 : r.applied_ts ≤ s.applied_ts ∨ r.term ≠ s.current_term
      · simp [handle_recovery_snapshot, h1, h2]
      · simp [handle_recovery_snapshot, h1, h2, hid, hstart]
    · simp [handle_recovery_snapshot, h1]
  · intro h1 h2 h3 h4 h5
    have hn1 : ¬ s.role ≠ NodeRole.follower := by simp [h1]
    have hn2 : ¬ (r.applied_ts ≤ s.applied_ts ∨ r.term ≠ s.current_term) := by
      push_neg
      exact ⟨by omega, h3⟩
    have hn3 : ¬ (s.recovery_snapshot_id ≠ some (r.term, r.applied_ts) ∧ r.start = false) := by
      rcases h4 with h | h <;> simp [h]
    simp only [handle_recovery_snapshot, if_neg hn1, if_neg hn2, if_neg hn3, h5, if_true]
    by_cases hz : (writeChunkOps (openIfNew s r) r.operations).recovery_snapshot_size = 0
    · rw [if_pos hz]
      refine ⟨by simp [create_response, hz], fun _ => ?_, fun hnz => absurd hz hnz⟩
      refine ⟨by simp, ?_, ?_, by simp⟩
      · simp [hdurable]
      · simp [hdurable]
    · rw [if_neg hz]
      refine ⟨by simp [create_response, hz], fun h0 => absurd h0 hz, fun _ => ?_⟩
      exact ⟨by simp [create_response], by simp, by simp⟩

/-- C7 witness: baseState (a follower in term 1 with applied_ts -1) accepting
the single-chunk snapshot rSnap: the remaining size reaches zero, so the
chunk succeeds and applied_ts becomes 3, durable_ts max(0,3)=3 and next_ts 4,
with the snapshot file synced. -/
theorem handle_recovery_snapshot_cases_witness :
    baseState.role = NodeRole.follower ∧
    baseState.applied_ts < rSnap.applied_ts ∧
    rSnap.term = baseState.current_term ∧
    rSnap.end_ = true ∧
    (((handle_recovery_snapshot baseState rSnap).2.success = true ↔
        (writeChunkOps (openIfNew baseState rSnap) rSnap.operations).recovery_snapshot_size = 0) ∧
     ((writeChunkOps (openIfNew baseState rSnap) rSnap.operations).recovery_snapshot_size = 0 →
        (handle_recovery_snapshot baseState rSnap).1.applied_ts = rSnap.applied_ts ∧
        (handle_recovery_snapshot baseState rSnap).1.durable_ts =
          max baseState.durable_ts rSnap.applied_ts ∧
        (handle_recovery_snapshot baseState rSnap).1.next_ts =
          max baseState.durable_ts rSnap.applied_ts + 1 ∧
        (handle_recovery_snapshot baseState rSnap).1.recovery_snapshot_file.synced = true) ∧
     ((writeChunkOps (openIfNew baseState rSnap) rSnap.operations).recovery_snapshot_size ≠ 0 →
        (handle_recovery_snapshot baseState rSnap).2.success = false ∧
        (handle_recovery_snapshot baseState rSnap).1.recovery_snapshot_file.fd = none ∧
        (handle_recovery_snapshot baseState rSnap).1.recovery_snapshot_id = none)) :=
  ⟨by decide, by decide, by decide, by decide,
   (handle_recovery_snapshot_cases baseState rSnap).2.2.2.2 (by decide) (by decide) (by decide)
     (Or.inr (by decide)) (by decide)⟩

theorem aat_role (s : NodeState) : (advance_applied_timestamp s).role = s.role :=
  (advance_applied_frame s).2.2.1

theorem aat_durable_ts (s : NodeState) :
    (advance_applied_timestamp s).durable_ts = s.durable_ts :=
  (advance_applied_frame s).2.2.2.2.1

theorem aat_next_ts (s : NodeState) : (advance_applied_timestamp s).next_ts = s.next_ts :=
  (advance_applied_frame s).2.2.2.2.2.1

theorem aat_durable_timestamps (s : NodeState) :
    (advance_applied_timestamp s).durable_timestamps =
      s.durable_timestamps.set s.id s.durable_ts :=
  (advance_applied_frame s).2.2.2.2.2.2.2.2.2.1

theorem aat_commit_subscribers (s : NodeState) :
    (advance_applied_timestamp s).commit_subscribers = s.commit_subscribers :=
  (advance_applied_frame s).2.2.2.2.2.2.2.2.2.2.1

theorem aat_flushed_index (s : NodeState) :
    (advance_applied_timestamp s).flushed_index = s.flushed_index :=
  (advance_applied_frame s).2.2.2.2.2.2.2.2.2.2.2.1

theorem aat_buffered_log (s : NodeState) :
    (advance_applied_timestamp s).buffered_log = s.buffered_log :=
  (advance_applied_frame s).2.2.2.2.2.2.2.2.2.2.2.2.1

theorem aat_flush_epoch (s : NodeState) :
    (advance_applied_timestamp s).flush_epoch = s.flush_epoch :=
  (advance_applied_frame s).2.2.2.2.2.2.2.2.2.2.2.2.2

/-- C6: confirmed.  When a successful vote response arrives while the term is
unchanged and the voter's vote pushes |voted_for_me| past N/2, the node
becomes leader and, in the same step, advances the applied timestamp to the
new quorum, sets the read barrier to its current durable_ts, clears the
commit subscribers, clamps every per-peer durable timestamp to
min(durable_timestamps[i], applied_ts) and resets every per-peer next
timestamp to applied_ts + 1. -/
theorem vote_response_majority_promotes_leader (N : Nat) (s : NodeState)
    (voter term : Nat) (resp : Response)
    (hsucc : resp.success = true)
    (hterm : s.current_term = term)
    (hmaj : (insertSet voter s.voted_for_me).length > N / 2) :
    leaderTransitionSpec N s voter term resp := by
  unfold leaderTransitionSpec on_vote_response
  simp only [hsucc, if_true]
  rw [if_pos (by simpa using hterm)]
  rw [if_pos (by simpa using hmaj)]
  refine ⟨?_, rfl, rfl, ?_, rfl, ?_, rfl⟩
  · rw [aat_role]
  · rw [aat_durable_ts]
  · rw [aat_durable_timestamps]

/-- C6 witness: electState (a candidate with its own vote in term 1) receives
a successful grant from node 2 whose response reports durable_ts 0 and
next_ts 1, reaching 2 > 3/2 votes and becoming leader. -/
theorem vote_response_majority_promotes_leader_witness :
    ({ term := 1, durable_ts := 0, next_ts := 1, success := true } : Response).success = true ∧
    electState.current_term = 1 ∧
    (insertSet 2 electState.voted_for_me).length > 3 / 2 ∧
    leaderTransitionSpec 3 electState 2 1
      { term := 1, durable_ts := 0, next_ts := 1, success := true } :=
  ⟨by decide, by decide, by decide,
   vote_response_majority_promotes_leader 3 electState 2 1
     { term := 1, durable_ts := 0, next_ts := 1, success := true }
     (by decide) (by decide) (by decide)⟩

theorem advance_to_spec (s : NodeState) (q b : Int)
    (hcontig : contigFrom b s.buffered_log = true)
    (hpos : b ≤ s.applied_ts + 1) :
    (advance_to s q).applied_ts =
      (if s.buffered_log.isEmpty then s.applied_ts
       else max s.applied_ts (min q (b + (s.buffered_log.length : Int) - 1))) ∧
    (advance_to s q).fsm =
      ((s.buffered_log.drop (s.applied_ts - b + 1).toNat).takeWhile
        (fun r => decide (r.ts ≤ q))).foldl applyRecord s.fsm := by
  simp only [advance_to]
  by_cases hemp : s.buffered_log.isEmpty
  · have hnil : s.buffered_log = [] := by
      cases h : s.buffered_log with
      | nil => rfl
      | cons a t => rw [h] at hemp; simp at hemp
    simp [hemp, hnil]
  · have hb : (s.buffered_log.headD default).ts = b := by
      cases h : s.buffered_log with
      | nil => rw [h] at hemp; simp at hemp
      | cons r0 rest =>
        rw [h] at hcontig
        simp only [contigFrom, Bool.and_eq_true, beq_iff_eq] at hcontig
        simpa using hcontig.1
    rw [if_neg hemp, if_neg hemp, hb]
    have hge : (0 : Int) ≤ s.applied_ts - b + 1 := by omega
    rw [if_pos hge]
    have hni : (((s.applied_ts - b + 1).toNat : Nat) : Int) = s.applied_ts - b + 1 :=
      Int.toNat_of_nonneg hge
    have hcd : contigFrom (s.applied_ts + 1)
        (s.buffered_log.drop (s.applied_ts - b + 1).toNat) = true := by
      have h1 := contigFrom_drop (s.applied_ts - b + 1).toNat s.buffered_log b hcontig
      have he : b + (((s.applied_ts - b + 1).toNat : Nat) : Int) = s.applied_ts + 1 := by omega
      rwa [he] at h1
    have hadv := advanceFrom_eq q (s.buffered_log.drop (s.applied_ts - b + 1).toNat)
      (s.applied_ts + 1) s.fsm hcd
    have hsimp : s.applied_ts + 1 - 1 = s.applied_ts := by ring
    rw [hsimp] at hadv
    have htk := takeWhile_length_contig q (s.buffered_log.drop (s.applied_ts - b + 1).toNat)
      (s.applied_ts + 1) hcd
    have hdl : (s.buffered_log.drop (s.applied_ts - b + 1).toNat).length =
        s.buffered_log.length - (s.applied_ts - b + 1).toNat :=
      List.length_drop _ _
    rw [hdl] at htk
    constructor
    · show (advanceFrom q (s.buffered_log.drop (s.applied_ts - b + 1).toNat)
        s.fsm s.applied_ts).2 = _
      rw [hadv]
      push_cast at htk ⊢
      omega
    · show (advanceFrom q (s.buffered_log.drop (s.applied_ts - b + 1).toNat)
        s.fsm s.applied_ts).1 = _
      rw [hadv]

/-- C4: confirmed.  advance_applied_timestamp writes the node's own
durable_ts into slot id of the per-peer durable timestamps, picks q as the
element at index N/2 of their ascending sort, and applies the buffered
records from applied_ts + 1 through the largest buffered ts that is at most
q, leaving applied_ts there (unchanged when no buffered record qualifies),
for any state whose buffered log is contiguous from b covering applied_ts+1. -/
theorem advance_applied_timestamp_quorum (s : NodeState) (b : Int) (N : Nat)
    (hlen : s.durable_timestamps.length = N) (hN : 0 < N)
    (hcontig : contigFrom b s.buffered_log = true)
    (hpos : b ≤ s.applied_ts + 1) :
    advanceQuorumSpec s b N := by
  have hq : quorumTs s =
      (List.insertionSort (fun a b => a ≤ b) (s.durable_timestamps.set s.id s.durable_ts)).getD
        (N / 2) 0 := by
    simp only [quorumTs]
    rw [List.length_insertionSort, List.length_set, hlen]
  have hspec := advance_to_spec
    { s with durable_timestamps := s.durable_timestamps.set s.id s.durable_ts }
    (quorumTs s) b hcontig hpos
  unfold advanceQuorumSpec
  exact ⟨aat_durable_timestamps s, hq, aat_durable_ts s, aat_next_ts s, aat_buffered_log s,
    hspec.1, hspec.2⟩

/-- C4 witness: leaderState (3 members, id 0, durable timestamps [1, 1, -1]
before recording its own durable_ts 1, contiguous buffered records at ts 0
and 1, nothing applied) satisfies the quorum-advancement characterization. -/
theorem advance_applied_timestamp_quorum_witness :
    leaderState.durable_timestamps.length = 3 ∧
    0 < 3 ∧
    contigFrom 0 leaderState.buffered_log = true ∧
    (0 : Int) ≤ leaderState.applied_ts + 1 ∧
    advanceQuorumSpec leaderState 0 3 :=
  ⟨by decide, by decide, by decide, by decide,
   advance_applied_timestamp_quorum leaderState 0 3 (by decide) (by decide) (by decide)
     (by decide)⟩

/-- C9 (amended): each flush cycle writes and syncs exactly the records at
indices [flushed_index, end) of the buffered log at collection time,
completes the flush event captured at the start of the cycle, sets durable_ts
to the ts of the last record remaining after the applied-backlog prefix
erasure (keeping the previous durable_ts when the buffer is then empty), and
on a leader fires exactly the commit subscribers with ts up to the newly
advanced applied_ts. -/
theorem flush_cycle_characterization (backlog : Int) (s : NodeState)
    (hsorted : s.commit_subscribers.Pairwise (· ≤ ·)) :
    flushCycleSpec backlog s := by
  unfold flushCycleSpec
  by_cases hrole : s.role = NodeRole.leader
  · simp only [flush, hrole, eq_self_iff_true, if_true]
    refine ⟨trivial, trivial, ?_, ?_, ?_, ?_, fun h => absurd rfl h, fun _ t => ?_⟩
    · rw [aat_flush_epoch]
    · rw [aat_durable_ts]
    · rw [aat_buffered_log]
    · rw [aat_flushed_index]
    · rw [aat_commit_subscribers]
      exact mem_takeWhile_le_iff _ s.commit_subscribers hsorted t
  · simp only [flush, hrole, if_false]
    refine ⟨trivial, trivial, trivial, trivial, trivial, trivial,
      fun _ => ⟨trivial, trivial, trivial⟩, fun h => h.elim⟩

/-- C9 witness: on flushLeader (a leader with two unflushed contiguous
records, subscribers at ts 0 and 1, applied_ts -1) a flush cycle with zero
backlog writes both records, advances applied_ts to the quorum 1 and fires
both subscribers. -/
theorem flush_cycle_characterization_witness :
    flushLeader.commit_subscribers.Pairwise (· ≤ ·) ∧
    flushCycleSpec 0 flushLeader :=
  ⟨by decide, flush_cycle_characterization 0 flushLeader (by decide)⟩
